import Mathlib

/-!
# Shallow embedding of the rustfs ext2-style metadata core

This file embeds the metadata layout and allocation engine of the
repository (`src/fs/ext2.rs`, `src/fs/inode.rs`, `src/fs/file.rs`) in
Lean 4 and proves / refutes the frozen specification claims about it.

Modelling conventions:
* the raw image (`Ext2Fs.image: Box<[u8]>`) is a structure holding its
  byte length and a total byte function `Nat → Nat`; all bytes are
  naturals below 256 and all 64-bit words naturals below `2^64`;
* `bread`/`bwrite` (trait `BlockDev`) copy whole 1024-byte blocks;
* the `transmute` of a 1024-byte buffer to `[u64; 128]` is modelled as
  reading each 8-byte group little-endian (the host the source runs on
  is little-endian x86-64);
* `first_match` mutates only its stack-local buffer (the source contains
  no `bwrite` call), so its embedding returns the scan result paired
  with the unchanged image;
* `format` returns `Except Nat _` mirroring `Result<(), FormatError>`:
  `Except.error c` is `FormatError(c)`.  Besides the mutated image the
  `ok` payload records the inode number, block id and root inode record
  the source computes internally, so that theorems can speak about them.
  The wall-clock time `SystemTime::now()` is passed in as a parameter.
  The model is faithful for images of at least 64 blocks; on smaller
  images the source's `block_count - META_BLOCKS_SZ - 1` underflows
  (a panic in debug builds) while Lean's `Nat` subtraction truncates,
  so theorems restrict to the faithful domain.
-/

namespace RustFs

/-! ## Constants (src/fs/ext2.rs lines 13-24, src/fs/inode.rs lines 1-7) -/

def BLOCK_SZ : Nat := 1024
def MAX_FILE_COUNT : Nat := 1024
def SUPER_BLOCK : Nat := 0
def SUPER_BLOCK_NUM : Nat := 1
def FREE_BITMAP_BLOCK : Nat := SUPER_BLOCK + SUPER_BLOCK_NUM
def FREE_BITMAP_BLOCK_SZ : Nat := 1
def INODE_BITMAP_BLOCK : Nat := FREE_BITMAP_BLOCK + FREE_BITMAP_BLOCK_SZ
def INODE_BITMAP_BLOCK_NUM : Nat := 1
def INODE_TABLE_BLOCKS : Nat := INODE_BITMAP_BLOCK + INODE_BITMAP_BLOCK_NUM
def INODE_TABLE_BLOCKS_SZ : Nat := 60
def DATA_BLOCKS : Nat := INODE_TABLE_BLOCKS + INODE_TABLE_BLOCKS_SZ
def META_BLOCKS_SZ : Nat := DATA_BLOCKS

def N_DIR_BLOCKS : Nat := 10
def INDIR_BLOCK : Nat := N_DIR_BLOCKS
def N_BLOCKS : Nat := INDIR_BLOCK + 1

def IFLNK : Nat := 0xA000
def IFREG : Nat := 0x8000
def IFDIR : Nat := 0x4000

/-- `u64::MAX`, the all-ones 64-bit word. -/
def allOnes64 : Nat := 2 ^ 64 - 1

/-! ## The image and the block-device interface (`BlockDev`) -/

/-- The raw image: its byte length and its bytes (a total function; only
indices below `size` correspond to bytes of the Rust `Box<[u8]>`). -/
structure Image where
  size : Nat
  byte : Nat → Nat

/-- `bread(buf, bid)`: the 1024-byte block `bid`, as a byte function on
offsets `0..1024`. -/
def bread (img : Image) (bid : Nat) : Nat → Nat :=
  fun k => img.byte (BLOCK_SZ * bid + k)

/-- `bwrite(buf, bid)`: overwrite block `bid` with `buf`. -/
def bwrite (img : Image) (buf : Nat → Nat) (bid : Nat) : Image :=
  { size := img.size
    byte := fun i =>
      if BLOCK_SZ * bid ≤ i ∧ i < BLOCK_SZ * (bid + 1) then buf (i - BLOCK_SZ * bid)
      else img.byte i }

/-! ## 64-bit words of a block buffer -/

/-- A 64-bit word assembled little-endian from eight bytes (the
`transmute::<&mut [u8; 1024], &mut [u64; 128]>` on a little-endian host). -/
def leWord (b : Nat → Nat) : Nat :=
  b 0 + 2 ^ 8 * b 1 + 2 ^ 16 * b 2 + 2 ^ 24 * b 3 +
    2 ^ 32 * b 4 + 2 ^ 40 * b 5 + 2 ^ 48 * b 6 + 2 ^ 56 * b 7

/-- Word `j` (0-based) of a 1024-byte block buffer. -/
def blockWord (buf : Nat → Nat) (j : Nat) : Nat :=
  leWord (fun k => buf (8 * j + k))

/-- `u64::leading_ones` restricted to the top `n` bits: counts the run of
set bits downward from bit `n - 1`. -/
def leadingOnesFrom (w : Nat) : Nat → Nat
  | 0 => 0
  | n + 1 => if w.testBit n then leadingOnesFrom w n + 1 else 0

/-- `u64::leading_ones`: the number of leading one-bits of a 64-bit word. -/
def leadingOnes (w : Nat) : Nat := leadingOnesFrom w 64

/-- `word_set_at!(word, index)`: set bit `index` under the
most-significant-bit-first convention, i.e. `word |= 1 << (63 - index)`
(src/fs/ext2.rs lines 27-29). -/
def word_set_at (w : Nat) (index : Nat) : Nat := w ||| 2 ^ (63 - index)

/-- The `iter_mut().enumerate().find(|(_, &mut x)| x != u64::MAX)` scan:
first word index `≥ j` (within `fuel` more words) whose word is not
all-ones. `first_match` calls it with `j = 0`, `fuel = 128`. -/
def findNonFullFrom (buf : Nat → Nat) : Nat → Nat → Option Nat
  | _, 0 => none
  | j, fuel + 1 =>
    if blockWord buf j ≠ allOnes64 then some j else findNonFullFrom buf (j + 1) fuel

/-! ## The allocator (`Ext2Fs::first_match`, `ialloc`, `balloc`) -/

/-- `Ext2Fs::first_match` (src/fs/ext2.rs lines 84-94): read the bitmap
block into a stack buffer, find the first word that is not all-ones, set
its most-significant zero bit in the buffer, and return
`word_idx * 64 + word.leading_ones()` where `leading_ones` is taken from
the *updated* word (the `|=` has already happened when the return value
is computed).  The buffer is stack-local and the source performs no
`bwrite`, so the image comes back unchanged. -/
def first_match (img : Image) (bitmap_bid : Nat) : Option Nat × Image :=
  let buf := bread img bitmap_bid
  match findNonFullFrom buf 0 (BLOCK_SZ / 8) with
  | some word_idx =>
    let w := blockWord buf word_idx
    let w2 := word_set_at w (leadingOnes w)
    (some (word_idx * 64 + leadingOnes w2), img)
  | none => (none, img)

/-- `Ext2Fs::ialloc`: scan the inode bitmap block.  (The `as u16` cast is
exact: `first_match` returns at most `127 * 64 + 64 = 8192 < 2^16`.) -/
def ialloc (img : Image) : Option Nat × Image := first_match img INODE_BITMAP_BLOCK

/-- `Ext2Fs::balloc`: scan the free-block bitmap block. -/
def balloc (img : Image) : Option Nat × Image := first_match img FREE_BITMAP_BLOCK

/-! ## Inode records (src/fs/inode.rs) -/

/-- The 64-byte inode record.  Field values are naturals within the
source's `u16`/`u32`/`u64` ranges; `i_block` is the 11-entry `u16`
pointer table. -/
structure Inode where
  i_mode : Nat
  i_size : Nat
  i_atime : Nat
  i_ctime : Nat
  i_mtime : Nat
  i_links_count : Nat
  i_blocks : Nat
  i_flags : Nat
  i_block : List Nat

/-- `Inode::new_dir(time, flags, first_block)` (src/fs/inode.rs lines
38-52): a zeroed pointer table with slot 0 set to `first_block`. -/
def Inode.new_dir (time : Nat) (flags : Nat) (first_block : Nat) : Inode :=
  { i_mode := IFDIR
    i_size := 0
    i_atime := time
    i_ctime := time
    i_mtime := time
    i_links_count := 1
    i_blocks := 1
    i_flags := flags
    i_block := (List.replicate N_BLOCKS 0).set 0 first_block }

/-! ## Superblock (src/fs/ext2.rs lines 40-49) -/

structure SuperBlk where
  s_inodes_count : Nat
  s_blocks_count : Nat
  s_free_blocks_count : Nat
  s_free_inodes_count : Nat
  s_first_data_block : Nat
  s_block_size : Nat
  s_last_allocate : Nat
  s_magic : Nat

/-! ## Serialization (`any_as_u8_slice` / `transmute` to bytes)

The source reinterprets packed structs of little-endian scalars as byte
slices; we serialize field by field, little-endian, in declaration
order. -/

def u16le (v : Nat) : List Nat := [v % 256, v / 256 % 256]

def u32le (v : Nat) : List Nat :=
  [v % 256, v / 2 ^ 8 % 256, v / 2 ^ 16 % 256, v / 2 ^ 24 % 256]

def u64le (v : Nat) : List Nat :=
  [v % 256, v / 2 ^ 8 % 256, v / 2 ^ 16 % 256, v / 2 ^ 24 % 256,
   v / 2 ^ 32 % 256, v / 2 ^ 40 % 256, v / 2 ^ 48 % 256, v / 2 ^ 56 % 256]

/-- The 16 bytes of a `SuperBlk` (eight `u16` fields, declaration order). -/
def encodeSuperBlk (sb : SuperBlk) : List Nat :=
  u16le sb.s_inodes_count ++ u16le sb.s_blocks_count ++
    u16le sb.s_free_blocks_count ++ u16le sb.s_free_inodes_count ++
    u16le sb.s_first_data_block ++ u16le sb.s_block_size ++
    u16le sb.s_last_allocate ++ u16le sb.s_magic

/-- The 64 bytes of an `Inode` record (no padding; 64 bytes as the
source's size comment and `size_of`-based splicing require). -/
def encodeInode (ino : Inode) : List Nat :=
  u16le ino.i_mode ++ u64le ino.i_size ++ u64le ino.i_atime ++
    u64le ino.i_ctime ++ u64le ino.i_mtime ++ u16le ino.i_links_count ++
    u16le ino.i_blocks ++ u32le ino.i_flags ++ (ino.i_block.map u16le).flatten

/-- A block buffer holding the bytes of `l` at its start and zero beyond
(the zero-initialised `[0; BLOCK_SZ]` with `l` copied at offset 0). -/
def bufOfList (l : List Nat) : Nat → Nat := fun k => l.getD k 0

/-- The `inode_block` buffer of `format`: a zeroed 1024-byte buffer with
the 64-byte record `rec` spliced in at byte offset `ino * 64`
(src/fs/ext2.rs lines 156-158). -/
def inodeBlockBuf (ino : Nat) (rec : List Nat) : Nat → Nat :=
  fun k => if 64 * ino ≤ k ∧ k < 64 * ino + 64 then rec.getD (k - 64 * ino) 0 else 0

/-! ## `Ext2Fs::format` (src/fs/ext2.rs lines 118-161) -/

/-- The `ok` payload of `format`: the mutated image plus the values the
source computes on the way (exposed so theorems can mention them). -/
structure FormatResult where
  image : Image
  ino : Nat
  bid : Nat
  inode : Inode

/-- The superblock `format` constructs for a `block_count`-block image.
`% 2 ^ 16` models the `as u16` casts. -/
def formatSuperBlk (block_count : Nat) : SuperBlk :=
  { s_inodes_count := 1
    s_blocks_count := block_count % 2 ^ 16
    s_free_blocks_count := (block_count - META_BLOCKS_SZ - 1) % 2 ^ 16
    s_free_inodes_count := (MAX_FILE_COUNT - 1) % 2 ^ 16
    s_first_data_block := META_BLOCKS_SZ % 2 ^ 16
    s_block_size := BLOCK_SZ % 2 ^ 16
    s_last_allocate := (META_BLOCKS_SZ + 1) % 2 ^ 16
    s_magic := 0xEF53 }

/-- The image after the superblock write of `format` (src/fs/ext2.rs
lines 121-136): the encoded superblock at the start of a zeroed buffer,
written to block `SUPER_BLOCK`. -/
def fmtAfterSuper (img : Image) : Image :=
  bwrite img (bufOfList (encodeSuperBlk (formatSuperBlk (img.size / BLOCK_SZ)))) SUPER_BLOCK

/-- The image after `format` has additionally zero-filled and written
both bitmap blocks (src/fs/ext2.rs lines 138-144). -/
def fmtAfterBitmaps (img : Image) : Image :=
  bwrite (bwrite (fmtAfterSuper img) (fun _ => 0) FREE_BITMAP_BLOCK)
    (fun _ => 0) INODE_BITMAP_BLOCK

/-- `Ext2Fs::format`: write the superblock at block 0, zero both bitmap
blocks, allocate the root inode number (`FormatError(1)` on failure) and
the root data block (`FormatError(2)` on failure), build the root
directory inode, and write the inode block to the *allocated block id*. -/
def format (img : Image) (time : Nat) : Except Nat FormatResult :=
  match ialloc (fmtAfterBitmaps img) with
  | (none, _) => Except.error 1
  | (some ino, img4) =>
    match balloc img4 with
    | (none, _) => Except.error 2
    | (some bid, img5) =>
      Except.ok
        { image := bwrite img5 (inodeBlockBuf ino (encodeInode (Inode.new_dir time 0 bid))) bid
          ino := ino
          bid := bid
          inode := Inode.new_dir time 0 bid }

/-! ## Spec-side allocator index (for comparison with the source)

The spec (§4.2) prescribes: select the first word not equal to all-ones
and return `word_index * 64 +` the count of leading one-bits of that
word *as it was read* — the position of its most-significant zero bit. -/

/-- The allocation index the specification prescribes: this definition
follows the spec's words (count the leading ones of the selected word as
read), in contrast to `first_match`, which recounts after setting the
bit. -/
def spec_first_free_index (img : Image) (bitmap_bid : Nat) : Option Nat :=
  let buf := bread img bitmap_bid
  match findNonFullFrom buf 0 (BLOCK_SZ / 8) with
  | some word_idx => some (word_idx * 64 + leadingOnes (blockWord buf word_idx))
  | none => none

/-! ## Basic lemmas about the embedding -/

theorem BLOCK_SZ_val : BLOCK_SZ = 1024 := rfl

theorem SUPER_BLOCK_val : SUPER_BLOCK = 0 := rfl

theorem FREE_BITMAP_BLOCK_val : FREE_BITMAP_BLOCK = 1 := rfl

theorem INODE_BITMAP_BLOCK_val : INODE_BITMAP_BLOCK = 2 := rfl

theorem INODE_TABLE_BLOCKS_val : INODE_TABLE_BLOCKS = 3 := rfl

theorem META_BLOCKS_SZ_val : META_BLOCKS_SZ = 63 := rfl

theorem bwrite_byte (img : Image) (buf : Nat → Nat) (b i : Nat) :
    (bwrite img buf b).byte i =
      if BLOCK_SZ * b ≤ i ∧ i < BLOCK_SZ * (b + 1) then buf (i - BLOCK_SZ * b)
      else img.byte i := rfl

theorem bread_bwrite_self (img : Image) (buf : Nat → Nat) (b k : Nat) (hk : k < 1024) :
    bread (bwrite img buf b) b k = buf k := by
  show (bwrite img buf b).byte (BLOCK_SZ * b + k) = buf k
  rw [bwrite_byte, if_pos (by simp only [BLOCK_SZ_val]; omega)]
  congr 1
  simp only [BLOCK_SZ_val]
  omega

theorem bread_bwrite_ne (img : Image) (buf : Nat → Nat) (b b' k : Nat)
    (hne : b' ≠ b) (hk : k < 1024) :
    bread (bwrite img buf b) b' k = bread img b' k := by
  show (bwrite img buf b).byte (BLOCK_SZ * b' + k) = img.byte (BLOCK_SZ * b' + k)
  rw [bwrite_byte, if_neg (by simp only [BLOCK_SZ_val]; omega)]

theorem findNonFullFrom_succ (buf : Nat → Nat) (j fuel : Nat) :
    findNonFullFrom buf j (fuel + 1) =
      if blockWord buf j ≠ allOnes64 then some j else findNonFullFrom buf (j + 1) fuel := rfl

theorem blockWord_congr (f g : Nat → Nat) (j : Nat) (hj : j < 128)
    (h : ∀ k, k < 1024 → f k = g k) : blockWord f j = blockWord g j := by
  simp only [blockWord, leWord]
  rw [h (8 * j + 0) (by omega), h (8 * j + 1) (by omega), h (8 * j + 2) (by omega),
    h (8 * j + 3) (by omega), h (8 * j + 4) (by omega), h (8 * j + 5) (by omega),
    h (8 * j + 6) (by omega), h (8 * j + 7) (by omega)]

theorem findNonFullFrom_none (buf : Nat → Nat) :
    ∀ fuel j, (∀ i, j ≤ i → i < j + fuel → blockWord buf i = allOnes64) →
      findNonFullFrom buf j fuel = none := by
  intro fuel
  induction fuel with
  | zero => intro j _; rfl
  | succ n ih =>
    intro j h
    rw [findNonFullFrom_succ, if_neg]
    · exact ih (j + 1) (fun i h1 h2 => h i (by omega) (by omega))
    · simp only [ne_eq, not_not]
      exact h j (le_refl j) (by omega)

/-- On a bitmap block whose word 0 reads as the all-zero word, the scan
selects word 0, sets its most significant bit in the stack buffer, and
returns `some 1` (one past the freed position, since the leading-ones
recount happens after the set); the image is untouched. -/
theorem first_match_word0_zero (img : Image) (b : Nat)
    (h : blockWord (bread img b) 0 = 0) : first_match img b = (some 1, img) := by
  have h1 : findNonFullFrom (bread img b) 0 (BLOCK_SZ / 8) = some 0 := by
    rw [show BLOCK_SZ / 8 = 127 + 1 from rfl, findNonFullFrom_succ, h]
    exact if_pos (by decide)
  have h2 : leadingOnes (word_set_at 0 (leadingOnes 0)) = 1 := by decide
  simp only [first_match, h1, h, h2]

/-- The image produced by a run of `format` (always along the success
path: both bitmap blocks are zeroed right before they are scanned, so
both allocations yield index 1). -/
def formatImage (img : Image) (t : Nat) : Image :=
  bwrite (fmtAfterBitmaps img) (inodeBlockBuf 1 (encodeInode (Inode.new_dir t 0 1))) 1

/-- Master lemma: `format` always succeeds in the model, allocating
inode number 1 and block id 1 and writing the root inode block over
block 1. -/
theorem format_ok (img : Image) (t : Nat) :
    format img t = Except.ok
      { image := formatImage img t, ino := 1, bid := 1, inode := Inode.new_dir t 0 1 } := by
  have hz2 : blockWord (bread (fmtAfterBitmaps img) INODE_BITMAP_BLOCK) 0 = 0 := by
    have hc : ∀ k, k < 1024 → bread (fmtAfterBitmaps img) INODE_BITMAP_BLOCK k = (fun _ => 0) k := by
      intro k hk
      exact bread_bwrite_self _ _ _ k hk
    rw [blockWord_congr _ (fun _ => 0) 0 (by omega) hc]
    norm_num [blockWord, leWord]
  have hz1 : blockWord (bread (fmtAfterBitmaps img) FREE_BITMAP_BLOCK) 0 = 0 := by
    have hc : ∀ k, k < 1024 → bread (fmtAfterBitmaps img) FREE_BITMAP_BLOCK k = (fun _ => 0) k := by
      intro k hk
      have e1 : bread (fmtAfterBitmaps img) FREE_BITMAP_BLOCK k =
          bread (bwrite (fmtAfterSuper img) (fun _ => 0) FREE_BITMAP_BLOCK) FREE_BITMAP_BLOCK k :=
        bread_bwrite_ne _ _ INODE_BITMAP_BLOCK FREE_BITMAP_BLOCK k (by decide) hk
      rw [e1, bread_bwrite_self _ _ _ k hk]
    rw [blockWord_congr _ (fun _ => 0) 0 (by omega) hc]
    norm_num [blockWord, leWord]
  have hi : ialloc (fmtAfterBitmaps img) = (some 1, fmtAfterBitmaps img) :=
    first_match_word0_zero _ _ hz2
  have hb : balloc (fmtAfterBitmaps img) = (some 1, fmtAfterBitmaps img) :=
    first_match_word0_zero _ _ hz1
  unfold format
  rw [hi]
  dsimp only
  rw [hb]
  rfl

/-! ## Reading whole blocks of the formatted image as lists -/

/-- Reading `n` positions of the padded buffer of a list gives the list
followed by zeros. -/
theorem map_range_getD (l : List Nat) :
    ∀ n, l.length ≤ n →
      (List.range n).map (fun k => l.getD k 0) = l ++ List.replicate (n - l.length) 0 := by
  induction l with
  | nil =>
    intro n _
    simp only [List.getD_nil, List.nil_append, List.length_nil, Nat.sub_zero]
    rw [List.map_const']
    rw [List.length_range]
  | cons a t ih =>
    intro n hn
    cases n with
    | zero => simp at hn
    | succ m =>
      rw [List.range_succ_eq_map, List.map_cons, List.map_map]
      have h0 : (a :: t).getD 0 0 = a := rfl
      rw [h0]
      have h1 : (List.range m).map ((fun k => (a :: t).getD k 0) ∘ Nat.succ) =
          (List.range m).map (fun k => t.getD k 0) := by
        refine List.map_congr_left ?_
        intro k _
        rfl
      rw [h1, ih m (by simpa using hn)]
      simp

theorem bufOfList_byte (l : List Nat) (k : Nat) : bufOfList l k = l.getD k 0 := rfl

/-- The `inode_block` buffer is the padded buffer of
`replicate (64 * ino) 0 ++ rec`. -/
theorem inodeBlockBuf_getD (ino : Nat) (rec' : List Nat) (hlen : rec'.length = 64) (k : Nat) :
    inodeBlockBuf ino rec' k = (List.replicate (64 * ino) 0 ++ rec').getD k 0 := by
  unfold inodeBlockBuf
  rcases Nat.lt_or_ge k (64 * ino) with hk | hk
  · rw [if_neg (by omega)]
    rw [List.getD_append _ _ _ _ (by simp; omega)]
    rw [List.getD_eq_getElem?_getD]
    simp [List.getElem?_replicate, hk]
  · rcases Nat.lt_or_ge k (64 * ino + 64) with hk2 | hk2
    · rw [if_pos (by omega)]
      rw [List.getD_append_right _ _ _ _ (by simpa using hk)]
      simp
    · rw [if_neg (by omega)]
      rw [List.getD_eq_default]
      simp only [List.length_append, List.length_replicate, hlen]
      omega

theorem encodeSuperBlk_length (sb : SuperBlk) : (encodeSuperBlk sb).length = 16 := by
  simp [encodeSuperBlk, u16le]

theorem encodeInode_new_dir_length (t f b : Nat) :
    (encodeInode (Inode.new_dir t f b)).length = 64 := by
  simp [encodeInode, Inode.new_dir, u16le, u32le, u64le, N_BLOCKS, INDIR_BLOCK, N_DIR_BLOCKS]

/-- Bytes of block 0 of the formatted image: the encoded superblock,
zero-padded. -/
theorem formatImage_block0 (img : Image) (t k : Nat) (hk : k < 1024) :
    (formatImage img t).byte k =
      (encodeSuperBlk (formatSuperBlk (img.size / BLOCK_SZ))).getD k 0 := by
  show (bwrite (fmtAfterBitmaps img) _ 1).byte k = _
  rw [bwrite_byte, if_neg (by simp only [BLOCK_SZ_val]; omega)]
  show (bwrite (bwrite (fmtAfterSuper img) _ FREE_BITMAP_BLOCK) _ INODE_BITMAP_BLOCK).byte k = _
  rw [bwrite_byte,
    if_neg (by simp only [BLOCK_SZ_val, INODE_BITMAP_BLOCK_val]; omega)]
  rw [bwrite_byte,
    if_neg (by simp only [BLOCK_SZ_val, FREE_BITMAP_BLOCK_val]; omega)]
  show (bwrite img _ SUPER_BLOCK).byte k = _
  rw [bwrite_byte,
    if_pos (by simp only [BLOCK_SZ_val, SUPER_BLOCK_val]; omega)]
  rw [bufOfList_byte]
  congr 1

/-- Bytes of block 1 of the formatted image: the root inode block
buffer (zeros, with the 64-byte record at offset `64 * 1`). -/
theorem formatImage_block1 (img : Image) (t k : Nat) (hk : k < 1024) :
    (formatImage img t).byte (1024 * 1 + k) =
      inodeBlockBuf 1 (encodeInode (Inode.new_dir t 0 1)) k := by
  have h := bread_bwrite_self (fmtAfterBitmaps img)
    (inodeBlockBuf 1 (encodeInode (Inode.new_dir t 0 1))) 1 k hk
  simpa [bread, formatImage, BLOCK_SZ_val] using h

/-- Bytes of blocks 3 and beyond are untouched by `format`. -/
theorem formatImage_frame (img : Image) (t k : Nat) (hk : 3 * 1024 ≤ k) :
    (formatImage img t).byte k = img.byte k := by
  show (bwrite (fmtAfterBitmaps img) _ 1).byte k = _
  rw [bwrite_byte, if_neg (by simp only [BLOCK_SZ_val]; omega)]
  show (bwrite (bwrite (fmtAfterSuper img) _ FREE_BITMAP_BLOCK) _ INODE_BITMAP_BLOCK).byte k = _
  rw [bwrite_byte,
    if_neg (by simp only [BLOCK_SZ_val, INODE_BITMAP_BLOCK_val]; omega)]
  rw [bwrite_byte,
    if_neg (by simp only [BLOCK_SZ_val, FREE_BITMAP_BLOCK_val]; omega)]
  show (bwrite img _ SUPER_BLOCK).byte k = _
  rw [bwrite_byte,
    if_neg (by simp only [BLOCK_SZ_val, SUPER_BLOCK_val]; omega)]

/-! ## Concrete images used by the closed theorems -/

/-- A zeroed two-block image; block 1 is a freshly zeroed bitmap block. -/
def zeroedTwoBlocks : Image := { size := 2048, byte := fun _ => 0 }

/-- A one-block image whose every byte is `0xFF`: an all-ones bitmap. -/
def allOnesBitmapImage : Image := { size := 1024, byte := fun _ => 255 }

/-- A zeroed image of `1024 * 1024` bytes (1024 blocks). -/
def zeroedMiB : Image := { size := 1024 * 1024, byte := fun _ => 0 }

/-- A zeroed image of exactly 64 blocks (`64 * 1024` bytes). -/
def zeroed64Blocks : Image := { size := 64 * 1024, byte := fun _ => 0 }

/-! ## The claims -/

/-- Claim C1: the spec states that `first_match` returns the 0-based
index of the lowest zero bit, `word_index * 64 +` the count of leading
one-bits of the selected word as it was read.  The code recounts the
leading ones only after setting the bit, so on a freshly zeroed bitmap
block the spec-prescribed index is 0 while the code returns 1. -/
theorem claim_C1_first_free_index_off_by_one :
    spec_first_free_index zeroedTwoBlocks 1 = some 0 ∧
      (first_match zeroedTwoBlocks 1).1 = some 1 := by
  constructor
  · decide
  · decide

/-- Claim C2: the spec states that after `allocate_first_free` the chosen
bit is set and the bitmap block is written back, so a freshly zeroed
bitmap block yields index 0 with its first bit persisted as 1.  The code
returns 1 and never writes the bitmap back: the first byte of the
persisted bitmap block is still 0 after the call. -/
theorem claim_C2_no_writeback_and_wrong_index :
    (first_match zeroedTwoBlocks 1).1 = some 1 ∧
      (first_match zeroedTwoBlocks 1).2.byte (1024 * 1) = 0 := by
  constructor
  · decide
  · rfl

/-- Claim C3: the spec states that formatting a zeroed `1024 * 1024`-byte
image yields root inode number 0 and root data block id 63 with pointer
slot 0 equal to 63.  The code succeeds but allocates inode number 1 and
block id 1 (both bitmaps are fully zeroed, never reserving the metadata
blocks, and `first_match` returns one past the freed bit), so slot 0
holds 1; `mode = 0x4000` and `block_count = 1` do hold. -/
theorem claim_C3_format_values :
    ((format zeroedMiB 0).toOption.map
        fun r => (r.ino, r.bid, r.inode.i_mode, r.inode.i_blocks, r.inode.i_block)) =
      some (1, 1, 0x4000, 1, [1, 0, 0, 0, 0, 0, 0, 0, 0, 0, 0]) := by
  rw [format_ok]
  rfl

/-- Claim C4 counterexample: the claim states that every image of 64
blocks or fewer is rejected with a `FormatError` before any write, but
`format` on a zeroed 64-block image returns `Ok`. -/
theorem claim_C4_counterexample :
    (format zeroed64Blocks 0).isOk = true := by
  rw [format_ok]
  rfl

/-- Claim C4 (amended): `format` performs no lower-bound size check; an
image of exactly 64 blocks (`64 * 1024` bytes) is formatted successfully
(`Ok`), not rejected. -/
theorem claim_C4_format_accepts_64_blocks (img : Image) (t : Nat)
    (_hsz : img.size = 64 * 1024) : (format img t).isOk = true := by
  rw [format_ok]
  rfl

theorem claim_C4_wit :
    zeroed64Blocks.size = 64 * 1024 ∧ (format zeroed64Blocks 3).isOk = true :=
  ⟨rfl, claim_C4_format_accepts_64_blocks zeroed64Blocks 3 rfl⟩

/-- Claim C5: for every image whose size is a multiple of 1024 and large
enough to format (and whose block count fits the `u16` counters),
`format` writes at block 0 a superblock with
`free_block_count = block_count - 64`, `free_inode_count = 1023`,
`first_data_block = 63`, `block_size = 1024` and `magic = 0xEF53`, the
record occupying the first 16 bytes of the block and the remainder of
the block zero. -/
theorem claim_C5_superblock_contents (img : Image) (t : Nat)
    (hmul : img.size % 1024 = 0) (hsz : 64 * 1024 ≤ img.size)
    (hbc : img.size / 1024 ≤ 65535) :
    ((format img t).toOption.map
        fun r => (List.range 1024).map fun k => r.image.byte k) =
      some (encodeSuperBlk
          { s_inodes_count := 1
            s_blocks_count := img.size / 1024
            s_free_blocks_count := img.size / 1024 - 64
            s_free_inodes_count := 1023
            s_first_data_block := 63
            s_block_size := 1024
            s_last_allocate := 64
            s_magic := 0xEF53 } ++ List.replicate 1008 0) := by
  rw [format_ok]
  show some ((List.range 1024).map fun k => (formatImage img t).byte k) = _
  have h1 : (List.range 1024).map (fun k => (formatImage img t).byte k) =
      (List.range 1024).map (fun k =>
        (encodeSuperBlk (formatSuperBlk (img.size / BLOCK_SZ))).getD k 0) :=
    List.map_congr_left fun k hk => formatImage_block0 img t k (List.mem_range.mp hk)
  rw [h1, map_range_getD _ 1024 (by rw [encodeSuperBlk_length]; omega), encodeSuperBlk_length]
  have h2 : formatSuperBlk (img.size / BLOCK_SZ) =
      { s_inodes_count := 1
        s_blocks_count := img.size / 1024
        s_free_blocks_count := img.size / 1024 - 64
        s_free_inodes_count := 1023
        s_first_data_block := 63
        s_block_size := 1024
        s_last_allocate := 64
        s_magic := 0xEF53 } := by
    simp only [formatSuperBlk, BLOCK_SZ_val, META_BLOCKS_SZ_val, MAX_FILE_COUNT,
      SuperBlk.mk.injEq]
    refine ⟨by norm_num, Nat.mod_eq_of_lt (by omega), ?_, by norm_num, by norm_num,
      by norm_num, by norm_num, trivial⟩
    rw [show img.size / 1024 - 63 - 1 = img.size / 1024 - 64 from by omega]
    exact Nat.mod_eq_of_lt (by omega)
  rw [h2]

theorem claim_C5_wit :
    zeroed64Blocks.size % 1024 = 0 ∧ 64 * 1024 ≤ zeroed64Blocks.size ∧
      zeroed64Blocks.size / 1024 ≤ 65535 ∧
      ((format zeroed64Blocks 4).toOption.map
          fun r => (List.range 1024).map fun k => r.image.byte k) =
        some (encodeSuperBlk
            { s_inodes_count := 1
              s_blocks_count := zeroed64Blocks.size / 1024
              s_free_blocks_count := zeroed64Blocks.size / 1024 - 64
              s_free_inodes_count := 1023
              s_first_data_block := 63
              s_block_size := 1024
              s_last_allocate := 64
              s_magic := 0xEF53 } ++ List.replicate 1008 0) :=
  ⟨by decide, by decide, by decide,
    claim_C5_superblock_contents zeroed64Blocks 4 (by decide) (by decide) (by decide)⟩

/-- Claim C6: for every timestamp, flags value, and block id, the
directory-inode constructor returns a record with `mode = 0x4000`,
`size = 0`, all three timestamps equal to the given time,
`link_count = 1`, `block_count = 1`, the given flags, pointer slot 0
equal to the given block id, and every other pointer slot (including the
indirect slot, index 10) zero. -/
theorem claim_C6_new_dir_fields (time flags first_block : Nat) :
    (Inode.new_dir time flags first_block).i_mode = 0x4000 ∧
      (Inode.new_dir time flags first_block).i_size = 0 ∧
      (Inode.new_dir time flags first_block).i_atime = time ∧
      (Inode.new_dir time flags first_block).i_ctime = time ∧
      (Inode.new_dir time flags first_block).i_mtime = time ∧
      (Inode.new_dir time flags first_block).i_links_count = 1 ∧
      (Inode.new_dir time flags first_block).i_blocks = 1 ∧
      (Inode.new_dir time flags first_block).i_flags = flags ∧
      (Inode.new_dir time flags first_block).i_block =
        [first_block, 0, 0, 0, 0, 0, 0, 0, 0, 0, 0] :=
  ⟨rfl, rfl, rfl, rfl, rfl, rfl, rfl, rfl, rfl⟩

theorem claim_C6_wit :
    (Inode.new_dir 5 7 9).i_mode = 0x4000 ∧
      (Inode.new_dir 5 7 9).i_size = 0 ∧
      (Inode.new_dir 5 7 9).i_atime = 5 ∧
      (Inode.new_dir 5 7 9).i_ctime = 5 ∧
      (Inode.new_dir 5 7 9).i_mtime = 5 ∧
      (Inode.new_dir 5 7 9).i_links_count = 1 ∧
      (Inode.new_dir 5 7 9).i_blocks = 1 ∧
      (Inode.new_dir 5 7 9).i_flags = 7 ∧
      (Inode.new_dir 5 7 9).i_block = [9, 0, 0, 0, 0, 0, 0, 0, 0, 0, 0] :=
  claim_C6_new_dir_fields 5 7 9

/-- Claim C7: during a successful format the serialized root inode
record sits at byte offset `ino * 64` (here `64 * 1 = 64`) inside an
otherwise zeroed 1024-byte block, and that block is written to the block
id returned by `balloc` (here 1), which lies outside the inode-table
region (blocks 3 to 62). -/
theorem claim_C7_inode_record_placement (img : Image) (t : Nat)
    (_hmul : img.size % 1024 = 0) (_hsz : 64 * 1024 ≤ img.size) :
    ((format img t).toOption.map
        fun r => (r.ino, r.bid,
          (List.range 1024).map fun k => r.image.byte (1024 * r.bid + k))) =
      some (1, 1, List.replicate 64 0 ++ encodeInode (Inode.new_dir t 0 1) ++
        List.replicate 896 0) ∧
      ¬(INODE_TABLE_BLOCKS ≤ 1 ∧ 1 < INODE_TABLE_BLOCKS + INODE_TABLE_BLOCKS_SZ) := by
  constructor
  · rw [format_ok]
    show some (1, 1, (List.range 1024).map fun k => (formatImage img t).byte (1024 * 1 + k)) = _
    have h1 : (List.range 1024).map (fun k => (formatImage img t).byte (1024 * 1 + k)) =
        (List.range 1024).map (fun k =>
          (List.replicate 64 0 ++ encodeInode (Inode.new_dir t 0 1)).getD k 0) := by
      refine List.map_congr_left fun k hk => ?_
      rw [formatImage_block1 img t k (List.mem_range.mp hk),
        inodeBlockBuf_getD 1 _ (encodeInode_new_dir_length t 0 1) k]
    rw [h1, map_range_getD _ 1024
      (by simp only [List.length_append, List.length_replicate,
        encodeInode_new_dir_length]; omega)]
    simp only [List.length_append, List.length_replicate, encodeInode_new_dir_length,
      List.append_assoc]
  · decide

theorem claim_C7_wit :
    zeroed64Blocks.size % 1024 = 0 ∧ 64 * 1024 ≤ zeroed64Blocks.size ∧
      (((format zeroed64Blocks 9).toOption.map
          fun r => (r.ino, r.bid,
            (List.range 1024).map fun k => r.image.byte (1024 * r.bid + k))) =
        some (1, 1, List.replicate 64 0 ++ encodeInode (Inode.new_dir 9 0 1) ++
          List.replicate 896 0) ∧
        ¬(INODE_TABLE_BLOCKS ≤ 1 ∧ 1 < INODE_TABLE_BLOCKS + INODE_TABLE_BLOCKS_SZ)) :=
  ⟨by decide, by decide,
    claim_C7_inode_record_placement zeroed64Blocks 9 (by decide) (by decide)⟩

/-- Claim C8: on a bitmap block in which every 64-bit word is all-ones
(every byte `0xFF`), `first_match` returns `none` and performs no write:
the image comes back byte-for-byte unchanged. -/
theorem claim_C8_all_ones_exhaustion (img : Image) (b : Nat)
    (h : ∀ k, k < 1024 → img.byte (BLOCK_SZ * b + k) = 255) :
    first_match img b = (none, img) := by
  have hw : ∀ j, j < 128 → blockWord (bread img b) j = allOnes64 := by
    intro j hj
    rw [blockWord_congr (bread img b) (fun _ => 255) j hj (fun k hk => h k hk)]
    norm_num [blockWord, leWord, allOnes64]
  have hfind : findNonFullFrom (bread img b) 0 (BLOCK_SZ / 8) = none :=
    findNonFullFrom_none _ 128 0 (fun i _ h2 => hw i (by omega))
  simp only [first_match, hfind]

theorem claim_C8_wit :
    first_match allOnesBitmapImage 0 = (none, allOnesBitmapImage) :=
  claim_C8_all_ones_exhaustion allOnesBitmapImage 0 (fun _ _ => rfl)

/-- Claim C9: for every image whose length is a multiple of 1024 and at
least `64 * 1024` bytes, `format` returns `Ok` regardless of the prior
contents of the image: both bitmap blocks are zero-filled and written
immediately before they are scanned, so neither `FormatError(1)` nor
`FormatError(2)` is reachable. -/
theorem claim_C9_format_always_ok (img : Image) (t : Nat)
    (_hmul : img.size % 1024 = 0) (_hsz : 64 * 1024 ≤ img.size) :
    (format img t).isOk = true := by
  rw [format_ok]
  rfl

theorem claim_C9_wit :
    zeroed64Blocks.size % 1024 = 0 ∧ 64 * 1024 ≤ zeroed64Blocks.size ∧
      (format zeroed64Blocks 1).isOk = true :=
  ⟨by decide, by decide, claim_C9_format_always_ok zeroed64Blocks 1 (by decide) (by decide)⟩

/-- Claim C10: a successful format modifies only blocks 0, 1 and 2 of
the image; every byte from block 3 onward (the whole inode-table region
and the whole data region) is unchanged, the root inode write landing on
the `balloc` result (block 1) rather than in the data region. -/
theorem claim_C10_blocks_from_3_unchanged (img : Image) (t k : Nat)
    (_hmul : img.size % 1024 = 0) (_hsz : 64 * 1024 ≤ img.size) (hk : 3 * 1024 ≤ k) :
    ((format img t).toOption.map fun r => r.image.byte k) = some (img.byte k) := by
  rw [format_ok]
  show some ((formatImage img t).byte k) = some (img.byte k)
  rw [formatImage_frame img t k hk]

theorem claim_C10_wit :
    zeroed64Blocks.size % 1024 = 0 ∧ 64 * 1024 ≤ zeroed64Blocks.size ∧ 3 * 1024 ≤ 4096 ∧
      ((format zeroed64Blocks 2).toOption.map fun r => r.image.byte 4096) =
        some (zeroed64Blocks.byte 4096) :=
  ⟨by decide, by decide, by decide,
    claim_C10_blocks_from_3_unchanged zeroed64Blocks 2 4096 (by decide) (by decide) (by decide)⟩

end RustFs
